import Mathlib

/-!
Verification development for the KovaaKs data-analysis companion loader
(`kovaaks_loader.py`). The file shallowly embeds the two functions of the
module — `parse_kovaaks_csv` and `load_all_kovaaks_data` — together with the
Python string, numeric-coercion and container primitives they rely on, and
proves the specification claims about them.

Modelling conventions:
* a file's content is its list of text lines (without newline terminators);
* Python exceptions are `Except.error` values; functions that the source
  makes total by catching exceptions are total Lean functions;
* `pandas.DataFrame` is modelled by `DF` (column names plus rows of optional
  text cells, `none` standing for a missing/NaN cell);
* Python `float` values are modelled as exact rationals; the claims only
  involve decimal literals that are exactly representable;
* console output relevant to the claims (the per-file error lines) is
  returned explicitly by the aggregator model.
-/

namespace Kovaaks

/-- The characters removed by Python `str.strip()` (ASCII whitespace). -/
def pySpace (c : Char) : Bool :=
  c = ' ' || c = '\t' || c = '\n' || c = '\r' || c = '\x0b' || c = '\x0c'

/-- Python `str.strip()` on a character list. -/
def pyStripL (cs : List Char) : List Char :=
  ((cs.dropWhile pySpace).reverse.dropWhile pySpace).reverse

/-- Python `str.strip()`. -/
def pyStrip (s : String) : String := ⟨pyStripL s.data⟩

/-- Python `str.startswith`. -/
def pyStartsWith (p s : String) : Bool := p.data.isPrefixOf s.data

/-- Python `str.endswith`. -/
def pyEndsWith (p s : String) : Bool := p.data.isSuffixOf s.data

/-- The first sentinel of the boundary scan: `line.strip().startswith('Weapon,')`. -/
def isWeaponLine (l : String) : Bool := pyStartsWith "Weapon," (pyStrip l)

/-- The second sentinel of the boundary scan: `line.strip().startswith('Kills:,')`. -/
def isKillsLine (l : String) : Bool := pyStartsWith "Kills:," (pyStrip l)

/-- The boundary scan of `parse_kovaaks_csv` (source lines 41-49): record the
first `Weapon,`-prefixed line as `section1_end`, record the first
`Kills:,`-prefixed line as `section2_end` and `break` there. In each
iteration the `Weapon,` test runs before the `Kills:,` test. The result is
the pair `(section1_end, section2_end)` of optional line indices. -/
def boundaryScan : List String → Option Nat × Option Nat
  | [] => (none, none)
  | l :: ls =>
    if isKillsLine l then
      (if isWeaponLine l then some 0 else none, some 0)
    else
      (if isWeaponLine l then some 0 else (boundaryScan ls).1.map (· + 1),
        (boundaryScan ls).2.map (· + 1))

/-- Index of the first line satisfying `p`, if any. -/
def firstIdx (p : String → Bool) : List String → Option Nat
  | [] => none
  | l :: ls => if p l then some 0 else (firstIdx p ls).map (· + 1)

/-- The lines actually inspected by the boundary scan: everything up to and
including the first `Kills:,` line, or the whole file when there is none. -/
def scanLines (ls : List String) : List String :=
  match firstIdx isKillsLine ls with
  | some k => ls.take (k + 1)
  | none => ls

/-- Numeric value of a digit string (helper for the `int`/`float` models). -/
def natOfDigits (cs : List Char) : Nat :=
  cs.foldl (fun a c => a * 10 + (c.toNat - 48)) 0

/-- A nonempty run of ASCII decimal digits, as a number. -/
def digitRun (cs : List Char) : Option Nat :=
  if !cs.isEmpty && cs.all (fun c => c.isDigit) then some (natOfDigits cs) else none

/-- Python `int(str)`: optional surrounding whitespace, optional sign, then a
nonempty digit run; anything else raises `ValueError` (here: `none`).
Underscore digit grouping and non-ASCII digits are not modelled; no claim
depends on them. In particular an embedded comma or dot is rejected. -/
def pyInt (s : String) : Option Int :=
  match pyStripL s.data with
  | '+' :: r => (digitRun r).map Int.ofNat
  | '-' :: r => (digitRun r).map (fun n => -(Int.ofNat n))
  | r => (digitRun r).map Int.ofNat

/-- Split a character list on every occurrence of `sep`. -/
def splitSep (sep : Char) : List Char → List (List Char)
  | [] => [[]]
  | c :: cs =>
    if c = sep then [] :: splitSep sep cs
    else
      match splitSep sep cs with
      | f :: r => (c :: f) :: r
      | [] => [[c]]

/-- Python `float(str)`, restricted to plain decimal forms
`[sign] digits . digits` (one of the two digit groups may be empty, not
both). The value is returned as an exact rational. Exponent notation,
`inf`/`nan` and underscore grouping are not modelled; no claim depends on
them. -/
def pyFloat (s : String) : Option Rat :=
  let cs := pyStripL s.data
  let sb : Int × List Char :=
    match cs with
    | '+' :: r => (1, r)
    | '-' :: r => (-1, r)
    | r => (1, r)
  match splitSep '.' sb.2 with
  | [ip, fp] =>
    if ip.isEmpty && fp.isEmpty then none
    else if ip.all Char.isDigit && fp.all Char.isDigit then
      some (mkRat (sb.1 * Int.ofNat (natOfDigits ip * 10 ^ fp.length + natOfDigits fp))
        (10 ^ fp.length))
    else none
  | _ => none

/-- A stats value: Python leaves it a string, or coerces it to `int` or
`float` (source lines 93-100). -/
inductive StatVal where
  | str (s : String)
  | int (n : Int)
  | float (q : Rat)
deriving DecidableEq, Repr

/-- The stats dictionary: insertion-ordered string-keyed map, as built by
plain Python `dict` assignment. -/
abbrev StatsDict := List (String × StatVal)

/-- Python `d.get(k)` / `d[k]` lookup on the stats dictionary. -/
def dictGet : StatsDict → String → Option StatVal
  | [], _ => none
  | (k1, v) :: r, k => if k1 = k then some v else dictGet r k

/-- Python `d[k] = v`: overwrite in place if the key exists (keeping its
insertion position), otherwise append. -/
def dictSet : StatsDict → String → StatVal → StatsDict
  | [], k, v => [(k, v)]
  | (k1, v1) :: r, k, v => if k1 = k then (k1, v) :: r else (k1, v1) :: dictSet r k v

/-- Python `line.split(':', 1)` provided the line contains a colon: the parts
before and after the first colon. `none` when there is no colon. -/
def splitColon : List Char → Option (List Char × List Char)
  | [] => none
  | c :: cs =>
    if c = ':' then some ([], cs)
    else (splitColon cs).map (fun p => (c :: p.1, p.2))

/-- The value clean-up of source line 91:
`value.strip().lstrip(',').rstrip(',').strip()` applied to `parts[1]` after
its initial `.strip()` (line 89). -/
def cleanValue (v : String) : String :=
  let v1 := pyStripL v.data
  ⟨pyStripL (((v1.dropWhile (fun c => c = ',')).reverse.dropWhile
      (fun c => c = ',')).reverse)⟩

/-- The numeric coercion of source lines 93-100: nothing is attempted on an
empty value; a value containing `.` goes through `float`, otherwise through
`int`; on `ValueError` the string is kept. -/
def coerceVal (v : String) : StatVal :=
  if v.data.isEmpty then .str v
  else if v.data.contains '.' then
    match pyFloat v with
    | some q => .float q
    | none => .str v
  else
    match pyInt v with
    | some n => .int n
    | none => .str v

/-- One iteration of the stats loop (source lines 83-101) on one line. -/
def statsLine (d : StatsDict) (line : String) : StatsDict :=
  let t := pyStrip line
  if t.data.isEmpty then d
  else
    match splitColon t.data with
    | none => d
    | some (a, b) => dictSet d (pyStrip ⟨a⟩) (coerceVal (cleanValue ⟨b⟩))

/-- The key under which a stats line would be stored, if it is stored. -/
def keyOfLine (line : String) : Option String :=
  let t := pyStrip line
  if t.data.isEmpty then none
  else
    match splitColon t.data with
    | none => none
    | some (a, _) => some (pyStrip ⟨a⟩)

/-- Model of a `pandas.DataFrame`: column names and rows of optional text
cells (`none` is a missing/NaN cell). -/
structure DF where
  cols : List String
  rows : List (List (Option String))
deriving DecidableEq, Repr

/-- `pd.DataFrame()`: the empty frame with no columns. -/
def DF.empty : DF := ⟨[], []⟩

/-- `df.dropna(how='all')`: drop every row all of whose cells are missing. -/
def DF.dropAllNone (df : DF) : DF :=
  ⟨df.cols, df.rows.filter (fun r => !(r.all (fun c => c.isNone)))⟩

/-- A line skipped by pandas `skip_blank_lines=True` (its default): a fully
empty line. -/
def pdBlank (s : String) : Bool := s = ""

/-- Comma-split of one CSV line into raw field texts. -/
def splitFields (s : String) : List String := (splitSep ',' s.data).map (fun cs => ⟨cs⟩)

/-- A CSV field as a cell: the empty field is missing (NaN). -/
def toCell (f : String) : Option String := if f = "" then none else some f

/-- pandas renames an empty header field at column position `i` to
`Unnamed: i`. -/
def renameEmptiesFrom (i : Nat) : List String → List String
  | [] => []
  | c :: cs =>
    (if c = "" then "Unnamed: " ++ toString i else c) :: renameEmptiesFrom (i + 1) cs

/-- Occurrence-count lookup in the header-mangling state (0 when absent). -/
def cntGet : List (String × Nat) → String → Nat
  | [], _ => 0
  | (k1, n) :: r, k => if k1 = k then n else cntGet r k

/-- Occurrence-count store in the header-mangling state. -/
def cntSet : List (String × Nat) → String → Nat → List (String × Nat)
  | [], k, n => [(k, n)]
  | (k1, n1) :: r, k, n => if k1 = k then (k1, n) :: r else (k1, n1) :: cntSet r k n

/-- The inner while loop of pandas header deduplication (`dedup_names`):
while the candidate name has a positive count, bump that count and append
`.<count>` to the name. Every iteration consumes a distinct existing key of
the count table (the looked-up name grows strictly and must already be
present to have a positive count), so `fuel = table length + 1` never runs
out and the fuel-0 branch is unreachable. -/
def dedupLoop : Nat → List (String × Nat) → String → Nat →
    List (String × Nat) × String × Nat
  | 0, m, col, cur => (m, col, cur)
  | fuel + 1, m, col, cur =>
    if 0 < cur then
      dedupLoop fuel (cntSet m col (cur + 1)) (col ++ "." ++ toString cur)
        (cntGet (cntSet m col (cur + 1)) (col ++ "." ++ toString cur))
    else (m, col, cur)

/-- pandas header deduplication over the whole header row, left to right:
run the while loop for each name, record the final name, and bump its
count. -/
def dedupGo (m : List (String × Nat)) : List String → List String
  | [] => []
  | c :: cs =>
    (dedupLoop (m.length + 1) m c (cntGet m c)).2.1 ::
      dedupGo (cntSet (dedupLoop (m.length + 1) m c (cntGet m c)).1
        (dedupLoop (m.length + 1) m c (cntGet m c)).2.1
        ((dedupLoop (m.length + 1) m c (cntGet m c)).2.2 + 1)) cs

/-- The column names pandas exposes for a header row: empty fields renamed
positionally to `Unnamed: i`, then duplicates mangled with `.k` suffixes. -/
def pandasCols (cols : List String) : List String :=
  dedupGo [] (renameEmptiesFrom 0 cols)

/-- Check and pad one data row against `expected` fields: a row with more
fields than expected is a tokenizer error; a shorter row is padded with
missing cells. -/
def parseRow (expected : Nat) (line : String) : Except String (List (Option String)) :=
  let fs := splitFields line
  if expected < fs.length then .error "Error tokenizing data"
  else .ok (fs.map toCell ++ List.replicate (expected - fs.length) none)

/-- Parse all data rows, propagating the first tokenizer error. -/
def parseRows (expected : Nat) : List String → Except String (List (List (Option String)))
  | [] => .ok []
  | l :: rest =>
    match parseRow expected l, parseRows expected rest with
    | .ok r, .ok rs => .ok (r :: rs)
    | .error e, _ => .error e
    | _, .error e => .error e

/-- Tabular parse of a header line plus data lines, as pandas does it: the
exposed columns are the mangled header names; when the first data row has
exactly one more field than the header, pandas infers an implicit index —
the first field of every data row becomes the index (dropped from the
model's rows: no claim inspects index values) and the expected row width
grows by one; rows wider than the expected width are tokenizer errors. -/
def csvCore (h : String) (dataLines : List String) : Except String DF :=
  match dataLines with
  | [] => .ok ⟨pandasCols (splitFields h), []⟩
  | first :: _ =>
    match parseRows
        (if (splitFields first).length = (splitFields h).length + 1 then
          (splitFields h).length + 1
        else (splitFields h).length) dataLines with
    | .ok rows =>
      .ok ⟨pandasCols (splitFields h),
        if (splitFields first).length = (splitFields h).length + 1 then
          rows.map (fun r => r.drop 1)
        else rows⟩
    | .error e => .error e

/-- Model of `pd.read_csv(filepath, skiprows=s, nrows=n)` with pandas
default behavior: after skipping `s` physical lines, blank lines are
skipped (`skip_blank_lines=True`), the first remaining line is the header,
and the next `n` parsed (non-blank) lines are the data rows — so with
interior blank lines the read consumes physical lines beyond index `s + n`.
Remaining simplifications: fields split on plain commas (no quoting), only
the empty field counts as missing, cell values stay text. It raises
(`Except.error`) when no non-blank line exists or a data row is wider than
the expected width. -/
def read_csv (ls : List String) (skiprows nrows : Nat) : Except String DF :=
  match (ls.drop skiprows).filter (fun l => !pdBlank l) with
  | [] => .error "No columns to parse from file"
  | h :: rest => csvCore h (rest.take nrows)

/-- The event-table block of `parse_kovaaks_csv` (source lines 51-66),
instrumented with the number of `pd.read_csv` calls it performs. The block
runs only when `section1_end` is set and positive; a successful parse with
zero rows is re-read with `nrows=0` to recover the column names; on an
exception the block falls back to an `nrows=0` read and then to an empty
frame. -/
def eventPart (ls : List String) (s1 : Option Nat) : DF × Nat :=
  match s1 with
  | none => (DF.empty, 0)
  | some n =>
    if 0 < n then
      match read_csv ls 0 (n - 1) with
      | .ok df =>
        if df.rows.isEmpty then
          match read_csv ls 0 0 with
          | .ok d => (d, 2)
          | .error _ =>
            match read_csv ls 0 0 with
            | .ok d => (d, 3)
            | .error _ => (DF.empty, 3)
        else (df, 1)
      | .error _ =>
        match read_csv ls 0 0 with
        | .ok d => (d, 2)
        | .error _ => (DF.empty, 2)
    else (DF.empty, 0)

/-- The metadata-table block of `parse_kovaaks_csv` (source lines 68-78),
instrumented with its number of `pd.read_csv` calls: when both boundaries are
set, read with `skiprows=section1_end, nrows=section2_end-section1_end-1`,
then drop fully empty rows; on an exception yield an empty frame. -/
def weaponPart (ls : List String) (s1 s2 : Option Nat) : DF × Nat :=
  match s1, s2 with
  | some a, some b =>
    (match read_csv ls a (b - a - 1) with
     | .ok df => (df.dropAllNone, 1)
     | .error _ => (DF.empty, 1))
  | _, _ => (DF.empty, 0)

/-- The stats block of `parse_kovaaks_csv` (source lines 80-101): when
`section2_end` is set, fold the stats-line step over every line from that
index on. -/
def statsPart (ls : List String) (s2 : Option Nat) : StatsDict :=
  match s2 with
  | some k => (ls.drop k).foldl statsLine []
  | none => []

/-- The result of one file parse, with `reads` counting how many times the
underlying file is read: 1 for the initial `readlines()` plus one per
`pd.read_csv` call. -/
structure ParseResult where
  main_df : DF
  weapon_df : DF
  stats : StatsDict
  reads : Nat
deriving DecidableEq, Repr

/-- `parse_kovaaks_csv` (source lines 17-103) on a file's line sequence. The
function is total: every exception of the source is caught internally. -/
def parse_kovaaks_csv (ls : List String) : ParseResult :=
  { main_df := (eventPart ls (boundaryScan ls).1).1
    weapon_df := (weaponPart ls (boundaryScan ls).1 (boundaryScan ls).2).1
    stats := statsPart ls (boundaryScan ls).2
    reads := 1 + (eventPart ls (boundaryScan ls).1).2
      + (weaponPart ls (boundaryScan ls).1 (boundaryScan ls).2).2 }

/-- One character of the `\s` class of Python `re` on text (the `\s*` gaps of
the filename pattern); modelled as the ASCII whitespace characters. -/
def reSpace (c : Char) : Bool := pySpace c

/-- Match a literal character sequence, returning the remaining input. -/
def litChars (p cs : List Char) : Option (List Char) :=
  if p.isPrefixOf cs then some (cs.drop p.length) else none

/-- Shape test for the timestamp group
`\d{4}\.\d{2}\.\d{2}-\d{2}\.\d{2}\.\d{2}` (19 characters). -/
def tsOk : List Char → Bool
  | [a, b, c, d, p, e, f, q, g, h, r, i, j, s, k, l, t, m, n] =>
    a.isDigit && b.isDigit && c.isDigit && d.isDigit && p = '.' &&
    e.isDigit && f.isDigit && q = '.' && g.isDigit && h.isDigit &&
    r = '-' && i.isDigit && j.isDigit && s = '.' && k.isDigit && l.isDigit &&
    t = '.' && m.isDigit && n.isDigit
  | _ => false

/-- Match the part of the filename pattern after the lazy task-name group:
`\s*-\s*Challenge\s*-\s*(\d{4}\.\d{2}\.\d{2}-\d{2}\.\d{2}\.\d{2})\s*Stats\.csv`,
returning the timestamp group. Each `\s*` is maximal munch, which is exact
here because every following literal starts with a non-space character. The
pattern is not anchored at the end (as with `re.match`), so trailing
characters after `Stats.csv` are ignored. -/
def matchTail (cs : List Char) : Option (List Char) :=
  match litChars ['-'] (cs.dropWhile reSpace) with
  | none => none
  | some r1 =>
    match litChars "Challenge".data (r1.dropWhile reSpace) with
    | none => none
    | some r2 =>
      match litChars ['-'] (r2.dropWhile reSpace) with
      | none => none
      | some r3 =>
        let r4 := r3.dropWhile reSpace
        if tsOk (r4.take 19) then
          match litChars "Stats.csv".data ((r4.drop 19).dropWhile reSpace) with
          | none => none
          | some _ => some (r4.take 19)
        else none

/-- The lazy group `(.*?)` of the pattern: try the shortest task-name prefix
first and extend one character at a time (`.` does not cross a newline). -/
def reMatchGo (acc cs : List Char) : Option (List Char × List Char) :=
  match matchTail cs with
  | some ts => some (acc.reverse, ts)
  | none =>
    match cs with
    | [] => none
    | c :: rest => if c = '\n' then none else reMatchGo (c :: acc) rest

/-- Model of source line 128:
`re.match(r'(.*?)\s*-\s*Challenge\s*-\s*(\d{4}\.\d{2}\.\d{2}-\d{2}\.\d{2}\.\d{2})\s*Stats\.csv', filename)`,
returning `(group(1), group(2))` on success. `re.match` anchors only at the
start of the string. -/
def reMatchFull (name : String) : Option (String × String) :=
  (reMatchGo [] name.data).map (fun p => (⟨p.1⟩, ⟨p.2⟩))

/-- Helper for the spec-worded exact pattern: like `matchTail` but requiring
the input to end immediately after `Stats.csv`. -/
def specTailEnd (cs : List Char) : Bool :=
  match litChars ['-'] (cs.dropWhile reSpace) with
  | none => false
  | some r1 =>
    match litChars "Challenge".data (r1.dropWhile reSpace) with
    | none => false
    | some r2 =>
      match litChars ['-'] (r2.dropWhile reSpace) with
      | none => false
      | some r3 =>
        let r4 := r3.dropWhile reSpace
        if tsOk (r4.take 19) then
          match litChars "Stats.csv".data ((r4.drop 19).dropWhile reSpace) with
          | some [] => true
          | _ => false
        else false

/-- Helper: some split of the name into task text and an exactly-ending tail. -/
def specExactGo : List Char → Bool
  | [] => specTailEnd []
  | c :: cs => specTailEnd (c :: cs) || specExactGo cs

/-- Follows the spec and claim wording (not the source): the whole filename
matches `<task name> - Challenge - <YYYY.MM.DD-HH.MM.SS> Stats.csv` exactly,
with nothing after `Stats.csv`. Used to compare the claimed exact-match rule
with the source's start-anchored `re.match`. -/
def specExactFilenameForm (name : String) : Bool := specExactGo name.data

/-- Python `collections.defaultdict` over string keys: an insertion-ordered
entry list plus the default produced by the factory on a missing-key lookup. -/
structure PyDefaultDict (V : Type) where
  entries : List (String × V)
  dfl : V
deriving DecidableEq, Repr

/-- Association-list lookup. -/
def entLookup {V : Type} : List (String × V) → String → Option V
  | [], _ => none
  | (k1, v) :: r, k => if k1 = k then some v else entLookup r k

/-- Association-list store: overwrite in place or append. -/
def entSet {V : Type} : List (String × V) → String → V → List (String × V)
  | [], k, v => [(k, v)]
  | (k1, v1) :: r, k, v => if k1 = k then (k1, v) :: r else (k1, v1) :: entSet r k v

/-- Plain lookup in a defaultdict (no vivification). -/
def pdLookup {V : Type} (m : PyDefaultDict V) (k : String) : Option V :=
  entLookup m.entries k

/-- Python `m[k]` on a defaultdict: a missing key yields the default and
inserts it into the mapping. Returns the value and the possibly-updated map. -/
def pdGet {V : Type} (m : PyDefaultDict V) (k : String) : V × PyDefaultDict V :=
  match pdLookup m k with
  | some v => (v, m)
  | none => (m.dfl, ⟨m.entries ++ [(k, m.dfl)], m.dfl⟩)

/-- Python `m[k] = v` on a defaultdict. -/
def pdSet {V : Type} (m : PyDefaultDict V) (k : String) (v : V) : PyDefaultDict V :=
  ⟨entSet m.entries k v, m.dfl⟩

/-- Python `m[k1][k2] = v` on a nested defaultdict: vivify the inner map,
store into it, store it back. -/
def nestedSet {V : Type} (m : PyDefaultDict (PyDefaultDict V)) (k1 k2 : String)
    (v : V) : PyDefaultDict (PyDefaultDict V) :=
  let g := pdGet m k1
  pdSet g.2 k1 (pdSet g.1 k2 v)

/-- The aggregation state of `load_all_kovaaks_data`: the three nested
indices (source lines 120-122) and the processed-file counter `i`. -/
structure AggState where
  main_data : PyDefaultDict (PyDefaultDict DF)
  weapon_data : PyDefaultDict (PyDefaultDict DF)
  stats_data : PyDefaultDict (PyDefaultDict StatsDict)
  processed : Nat
deriving DecidableEq, Repr

/-- The initial state:
`defaultdict(lambda: defaultdict(pd.DataFrame))` twice and
`defaultdict(lambda: defaultdict(dict))`. -/
def initState : AggState :=
  { main_data := ⟨[], ⟨[], DF.empty⟩⟩
    weapon_data := ⟨[], ⟨[], DF.empty⟩⟩
    stats_data := ⟨[], ⟨[], []⟩⟩
    processed := 0 }

/-- A directory entry: a filename plus the outcome of reading the file
(`Except.error` models an exception raised while reading or parsing it). -/
structure DirEntry where
  name : String
  content : Except String (List String)
deriving Repr

/-- Processing of one directory entry (source lines 126-147): skip names not
ending in `.csv`; skip names the pattern does not match; otherwise parse and
insert under `[task][timestamp]`, or on an exception emit the error line
`Error processing <filename>: <e>` and change nothing. Returns the new state
and the error lines printed for this entry. -/
def aggStep (s : AggState) (e : DirEntry) : AggState × List String :=
  if pyEndsWith ".csv" e.name then
    match reMatchFull e.name with
    | some g =>
      match e.content with
      | .ok ls =>
        let task := pyStrip g.1
        let r := parse_kovaaks_csv ls
        ({ main_data := nestedSet s.main_data task g.2 r.main_df
           weapon_data := nestedSet s.weapon_data task g.2 r.weapon_df
           stats_data := nestedSet s.stats_data task g.2 r.stats
           processed := s.processed + 1 }, [])
      | .error msg => (s, ["Error processing " ++ e.name ++ ": " ++ msg])
    | none => (s, [])
  else (s, [])

/-- Folding `aggStep` over the directory listing, accumulating error lines. -/
def aggRun (s : AggState) : List DirEntry → AggState × List String
  | [] => (s, [])
  | e :: rest =>
    ((aggRun (aggStep s e).1 rest).1, (aggStep s e).2 ++ (aggRun (aggStep s e).1 rest).2)

/-- `load_all_kovaaks_data` (source lines 106-152) over a directory listing:
the final indices-plus-counter state and the error lines printed along the
way. Progress lines (`Processed n files...` and the final summary) are
observational output not modelled here; the error lines are returned because
the error-handling claims are about them. -/
def load_all_kovaaks_data (dir : List DirEntry) : AggState × List String :=
  aggRun initState dir

/-! Concrete inputs used to settle the claims. -/

/-- A file whose stats section holds a value that cleans up to `1,234`. -/
def c1file : List String := ["Kills:,5", "Total: 1,234,"]

/-- A file exercising the three coercion outcomes of the round-trip claim. -/
def c1allFile : List String := ["Kills:,5", "A: ,1,234,", "B: 0.50,", "C: N/A"]

/-- A well-formed three-section file (two event rows worth of structure). -/
def c2file : List String :=
  ["A,B", "1,2", "Weapon,Ammo", "Pistol,30", "Kills:,5", "Score: 10"]

/-- A filename that `re.match` accepts (start-anchored) although the exact
pattern does not cover the whole name, and that still ends in `.csv`. -/
def c3BadName : String := "A - Challenge - 2024.01.15-10.30.00 Stats.csv.bak.csv"

/-- The spec's positive filename example. -/
def closeRangeName : String := "Close Range - Challenge - 2024.01.15-10.30.00 Stats.csv"

/-- A valid-looking filename used for witness instantiation. -/
def plainName : String := "T - Challenge - 2024.01.01-00.00.00 Stats.csv"

/-- A file whose metadata section contains a fully blank ROW (the line `","`
— non-blank as a line, all-missing as a row) and no blank lines. -/
def c4file : List String := ["A,B", "1,2", "Weapon,Ammo", "Pistol,30", ",", "Kills:,5"]

/-- A file with a blank LINE inside the metadata range
`[section1_end, section2_end) = [1, 3)`: pandas skips it and the
`nrows`-bounded read pulls the `Kills:,` line into the metadata table. -/
def c4blank : List String := ["x", "Weapon,Ammo", "", "Kills:,5"]

/-- A file whose event section is a header line with a duplicated column
name, which pandas mangles. -/
def c8dup : List String := ["A,A", "Weapon,x", "Kills:,1"]

/-- Follows the spec and claim wording of C4 (not the source): the metadata
table parsed from exactly the lines of the half-open range `[a, b)` — the
line at index `a` as header, the remaining lines of the range as data rows —
with every all-blank row dropped and an empty frame on failure. Compared
against what the code computes. -/
def specRangeMetadataParse (ls : List String) (a b : Nat) : DF :=
  match (ls.drop a).take (b - a) with
  | [] => DF.empty
  | h :: rest =>
    match csvCore h rest with
    | .ok df => df.dropAllNone
    | .error _ => DF.empty

/-- A file with no `Weapon,` line before its `Kills:,` line. -/
def c6file : List String := ["foo", "Kills:,2", "Hits: 3"]

/-- A file with a header-only event section. -/
def c7file : List String := ["A,B", "Weapon,x", "Kills:,1"]

/-- Directory for the aggregation scenario: three valid files and one file
whose read raises, in listing order. -/
def demoDir9 : List DirEntry :=
  [⟨"Task A - Challenge - 2024.01.01-00.00.01 Stats.csv", .ok ["Kills:,1"]⟩,
   ⟨"Task B - Challenge - 2024.01.01-00.00.02 Stats.csv", .ok ["Kills:,2"]⟩,
   ⟨"Task D - Challenge - 2024.01.01-00.00.04 Stats.csv", .error "read failure"⟩,
   ⟨"Task C - Challenge - 2024.01.01-00.00.03 Stats.csv", .ok ["Kills:,3"]⟩]

/-- The same directory without the failing file. -/
def demoDir9ok : List DirEntry :=
  [⟨"Task A - Challenge - 2024.01.01-00.00.01 Stats.csv", .ok ["Kills:,1"]⟩,
   ⟨"Task B - Challenge - 2024.01.01-00.00.02 Stats.csv", .ok ["Kills:,2"]⟩,
   ⟨"Task C - Challenge - 2024.01.01-00.00.03 Stats.csv", .ok ["Kills:,3"]⟩]

/-! Helper lemmas about the boundary scan. -/

theorem not_weapon_and_kills (cs : List Char) :
    "Weapon,".data.isPrefixOf cs = true → "Kills:,".data.isPrefixOf cs = true → False := by
  intro h1 h2
  rw [List.isPrefixOf_iff_prefix] at h1 h2
  obtain ⟨t1, e1⟩ := h1
  obtain ⟨t2, e2⟩ := h2
  have hW : cs.head? = some 'W' := by
    rw [← e1]; rfl
  have hK : cs.head? = some 'K' := by
    rw [← e2]; rfl
  rw [hW] at hK
  simp at hK

theorem weaponLine_kills_false (l : String) (h : isWeaponLine l = true) :
    isKillsLine l = false := by
  cases hk : isKillsLine l with
  | false => rfl
  | true =>
    simp only [isWeaponLine, isKillsLine, pyStartsWith] at h hk
    exact (not_weapon_and_kills (pyStrip l).data h hk).elim

theorem bScan_snd (ls : List String) :
    (boundaryScan ls).2 = firstIdx isKillsLine ls := by
  induction ls with
  | nil => rfl
  | cons l ls ih =>
    cases hk : isKillsLine l <;> simp [boundaryScan, firstIdx, hk, ih]

theorem scanLines_cons (l : String) (ls : List String) (hk : isKillsLine l = false) :
    scanLines (l :: ls) = l :: scanLines ls := by
  cases hf : firstIdx isKillsLine ls <;>
    simp [scanLines, firstIdx, hk, hf, List.take_succ_cons]

theorem bScan_fst (ls : List String) :
    (boundaryScan ls).1 = firstIdx isWeaponLine (scanLines ls) := by
  induction ls with
  | nil => rfl
  | cons l ls ih =>
    cases hk : isKillsLine l with
    | true => simp [boundaryScan, scanLines, firstIdx, hk]
    | false =>
      rw [scanLines_cons l ls hk]
      cases hw : isWeaponLine l <;> simp [boundaryScan, firstIdx, hk, hw, ih]

theorem bScan_append (ls rest : List String) (k : Nat)
    (h : firstIdx isKillsLine ls = some k) :
    boundaryScan (ls ++ rest) = boundaryScan ls := by
  induction ls generalizing k with
  | nil => simp [firstIdx] at h
  | cons l ls ih =>
    cases hk : isKillsLine l with
    | true => simp [boundaryScan, hk, List.cons_append]
    | false =>
      rw [firstIdx, if_neg (by simp [hk])] at h
      obtain ⟨k1, hk1, _⟩ := Option.map_eq_some'.mp h
      simp [boundaryScan, hk, List.cons_append, ih k1 hk1]

theorem bScan_lt (ls : List String) (a b : Nat)
    (h : boundaryScan ls = (some a, some b)) : a < b := by
  induction ls generalizing a b with
  | nil => simp [boundaryScan] at h
  | cons l ls ih =>
    cases hk : isKillsLine l with
    | true =>
      cases hw : isWeaponLine l with
      | true => exact absurd hk (by simp [weaponLine_kills_false l hw])
      | false => simp [boundaryScan, hk, hw] at h
    | false =>
      cases hw : isWeaponLine l with
      | true =>
        simp only [boundaryScan, hk, hw, if_true, if_false, Bool.false_eq_true,
          Prod.mk.injEq, Option.some.injEq, Option.map_eq_some'] at h
        obtain ⟨ha, b1, hb1, hb2⟩ := h
        omega
      | false =>
        simp only [boundaryScan, hk, hw, if_true, if_false, Bool.false_eq_true,
          Prod.mk.injEq, Option.map_eq_some'] at h
        obtain ⟨⟨a1, ha1, ha2⟩, ⟨b1, hb1, hb2⟩⟩ := h
        have := ih a1 b1 (Prod.ext_iff.mpr ⟨ha1, hb1⟩)
        omega

theorem firstIdx_none_iff (p : String → Bool) (ls : List String) :
    firstIdx p ls = none ↔ ∀ l ∈ ls, p l = false := by
  induction ls with
  | nil => simp [firstIdx]
  | cons l ls ih =>
    cases hp : p l <;> simp [firstIdx, hp, ih]

/-! Helper lemmas about the stats dictionary. -/

theorem dictGet_set_self (d : StatsDict) (k : String) (v : StatVal) :
    dictGet (dictSet d k v) k = some v := by
  induction d with
  | nil => simp [dictSet, dictGet]
  | cons e r ih =>
    obtain ⟨k1, v1⟩ := e
    by_cases h : k1 = k <;> simp [dictSet, dictGet, h, ih]

theorem dictGet_set_mono (d : StatsDict) (k k1 : String) (v : StatVal)
    (h : dictGet d k ≠ none) : dictGet (dictSet d k1 v) k ≠ none := by
  induction d with
  | nil => simp [dictGet] at h
  | cons e r ih =>
    obtain ⟨k2, v2⟩ := e
    by_cases h2 : k2 = k1
    · subst h2
      by_cases h3 : k2 = k
      · subst h3
        simp [dictSet, dictGet]
      · simp only [dictSet, dictGet, if_pos rfl, if_neg h3] at h ⊢
        exact h
    · by_cases h3 : k2 = k
      · subst h3
        simp [dictSet, dictGet, h2]
      · simp only [dictSet, dictGet, if_neg h2, if_neg h3] at h ⊢
        exact ih h

theorem statsLine_mono (d : StatsDict) (l : String) (k : String)
    (h : dictGet d k ≠ none) : dictGet (statsLine d l) k ≠ none := by
  cases he : (pyStrip l).data.isEmpty with
  | true => simpa [statsLine, he] using h
  | false =>
    cases hs : splitColon (pyStrip l).data with
    | none => simpa [statsLine, he, hs] using h
    | some p =>
      obtain ⟨a, b⟩ := p
      simp only [statsLine, he, hs, Bool.false_eq_true, if_false]
      exact dictGet_set_mono d k _ _ h

theorem statsLine_self (d : StatsDict) (l : String) (k : String)
    (h : keyOfLine l = some k) : dictGet (statsLine d l) k ≠ none := by
  cases he : (pyStrip l).data.isEmpty with
  | true => simp [keyOfLine, he] at h
  | false =>
    cases hs : splitColon (pyStrip l).data with
    | none => simp [keyOfLine, he, hs] at h
    | some p =>
      obtain ⟨a, b⟩ := p
      simp only [keyOfLine, he, hs, Bool.false_eq_true, if_false,
        Option.some.injEq] at h
      subst h
      simp only [statsLine, he, hs, Bool.false_eq_true, if_false]
      simp [dictGet_set_self]

theorem foldl_statsLine_mem (ms : List String) (d : StatsDict) (k : String)
    (h : (∃ l ∈ ms, keyOfLine l = some k) ∨ dictGet d k ≠ none) :
    dictGet (ms.foldl statsLine d) k ≠ none := by
  induction ms generalizing d with
  | nil =>
    rcases h with ⟨l, hl, _⟩ | h
    · simp at hl
    · simpa using h
  | cons m ms ih =>
    rcases h with ⟨l, hl, hkey⟩ | h
    · rcases List.mem_cons.mp hl with heq | hl2
      · exact ih (statsLine d m) (Or.inr (statsLine_self d m k (heq ▸ hkey)))
      · exact ih (statsLine d m) (Or.inl ⟨l, hl2, hkey⟩)
    · exact ih (statsLine d m) (Or.inr (statsLine_mono d m k h))

/-! Claim theorems. -/

/-- C7: boundary detection records `section2_end` as the index of the first
`Kills:,`-prefixed line and `section1_end` as the index of the first
`Weapon,`-prefixed line among the scanned lines; the scan halts at the first
`Kills:,` match, so no line after it — in particular a later
`Kills:,`-prefixed line inside section 3 — can change either boundary. -/
theorem C7_boundary_scan_halt (ls : List String) :
    (boundaryScan ls).2 = firstIdx isKillsLine ls
    ∧ (boundaryScan ls).1 = firstIdx isWeaponLine (scanLines ls)
    ∧ ∀ k rest, firstIdx isKillsLine ls = some k →
        boundaryScan (ls ++ rest) = boundaryScan ls :=
  ⟨bScan_snd ls, bScan_fst ls, fun k rest h => bScan_append ls rest k h⟩

/-- C7 witness: appending extra `Kills:,` and `Weapon,` lines after the
first `Kills:,` line of a concrete file leaves both boundaries unchanged. -/
theorem C7_boundary_scan_halt_witness :
    boundaryScan (c7file ++ ["Kills:,7", "Weapon,z"]) = boundaryScan c7file :=
  (C7_boundary_scan_halt c7file).2.2 2 ["Kills:,7", "Weapon,z"] (by decide)

/-- C6: when no `Weapon,` line is scanned before the first `Kills:,` line
(`section1_end` never set), the event and metadata tables are both empty
containers, and the stats map is still built from the lines at or after
`section2_end` — every nonempty colon-containing line there contributes its
key. -/
theorem C6_no_event_section (ls : List String) (k : Nat)
    (hk : firstIdx isKillsLine ls = some k)
    (hw : ∀ l ∈ ls.take (k + 1), isWeaponLine l = false) :
    (parse_kovaaks_csv ls).main_df = DF.empty
    ∧ (parse_kovaaks_csv ls).weapon_df = DF.empty
    ∧ (parse_kovaaks_csv ls).stats = (ls.drop k).foldl statsLine []
    ∧ ∀ l ∈ ls.drop k, ∀ key, keyOfLine l = some key →
        dictGet (parse_kovaaks_csv ls).stats key ≠ none := by
  have h1 : (boundaryScan ls).1 = none := by
    rw [bScan_fst, scanLines, hk]
    exact (firstIdx_none_iff _ _).mpr hw
  have h2 : (boundaryScan ls).2 = some k := by rw [bScan_snd, hk]
  refine ⟨?_, ?_, ?_, ?_⟩
  · simp [parse_kovaaks_csv, eventPart, h1]
  · simp [parse_kovaaks_csv, weaponPart, h1, h2]
  · simp [parse_kovaaks_csv, statsPart, h2]
  · intro l hl key hkey
    have hs : (parse_kovaaks_csv ls).stats = (ls.drop k).foldl statsLine [] := by
      simp [parse_kovaaks_csv, statsPart, h2]
    rw [hs]
    exact foldl_statsLine_mem _ _ _ (Or.inl ⟨l, hl, hkey⟩)

/-- C6 witness: a concrete file with no `Weapon,` line before `Kills:,`
yields empty event and metadata tables while its stats keys are present. -/
theorem C6_no_event_section_witness :
    (parse_kovaaks_csv c6file).main_df = DF.empty
    ∧ (parse_kovaaks_csv c6file).weapon_df = DF.empty
    ∧ dictGet (parse_kovaaks_csv c6file).stats "Hits" ≠ none := by
  have h := C6_no_event_section c6file 1 (by decide) (by decide)
  exact ⟨h.1, h.2.1, h.2.2.2 "Hits: 3" (by decide) "Hits" (by decide)⟩

theorem firstIdx_some_mem (p : String → Bool) (ls : List String) (i : Nat)
    (h : firstIdx p ls = some i) : ∃ l ∈ ls, p l = true := by
  induction ls generalizing i with
  | nil => simp [firstIdx] at h
  | cons l ls ih =>
    cases hp : p l with
    | true => exact ⟨l, List.mem_cons_self l ls, hp⟩
    | false =>
      rw [firstIdx, if_neg (by simp [hp])] at h
      obtain ⟨j, hj, _⟩ := Option.map_eq_some'.mp h
      obtain ⟨x, hx, hpx⟩ := ih j hj
      exact ⟨x, List.mem_cons_of_mem l hx, hpx⟩

theorem scanLines_subset (ls : List String) : scanLines ls ⊆ ls := by
  unfold scanLines
  cases firstIdx isKillsLine ls with
  | none => exact fun x hx => hx
  | some k => exact List.take_subset _ _

theorem isWeaponLine_not_blank (l : String) (h : isWeaponLine l = true) :
    pdBlank l = false := by
  cases hb : pdBlank l with
  | false => rfl
  | true =>
    have hl : l = "" := by simpa [pdBlank] using hb
    subst hl
    exact absurd h (by decide)

theorem read00_ok (ls : List String) (l : String) (hmem : l ∈ ls)
    (hb : pdBlank l = false) : ∃ d, read_csv ls 0 0 = Except.ok d := by
  have hf : ls.filter (fun x => !pdBlank x) ≠ [] :=
    List.ne_nil_of_mem (List.mem_filter.mpr ⟨hmem, by simp [hb]⟩)
  cases hfe : ls.filter (fun x => !pdBlank x) with
  | nil => exact absurd hfe hf
  | cons hh rest =>
    refine ⟨⟨pandasCols (splitFields hh), []⟩, ?_⟩
    simp [read_csv, List.drop_zero, hfe, csvCore, List.take_zero]

/-! Helper lemmas about pandas header-name normalization. -/

theorem renameEmptiesFrom_id (i : Nat) (cols : List String)
    (h : ∀ c ∈ cols, c ≠ "") : renameEmptiesFrom i cols = cols := by
  induction cols generalizing i with
  | nil => rfl
  | cons c cs ih =>
    have hc : c ≠ "" := h c (List.mem_cons_self c cs)
    simp [renameEmptiesFrom, hc,
      ih (i + 1) (fun x hx => h x (List.mem_cons_of_mem c hx))]

theorem cntGet_set_ne (m : List (String × Nat)) (k k2 : String) (n : Nat)
    (h : k2 ≠ k) : cntGet (cntSet m k n) k2 = cntGet m k2 := by
  induction m with
  | nil => simp [cntSet, cntGet, Ne.symm h]
  | cons e r ih =>
    obtain ⟨k1, n1⟩ := e
    by_cases h1 : k1 = k
    · have hne : ¬ k = k2 := fun hh => h hh.symm
      simp [cntSet, cntGet, h1, hne]
    · by_cases h2 : k1 = k2 <;> simp [cntSet, cntGet, h1, h2, h, ih]

theorem dedupGo_fresh (cols : List String) (m : List (String × Nat))
    (hnd : cols.Nodup) (h0 : ∀ c ∈ cols, cntGet m c = 0) :
    dedupGo m cols = cols := by
  induction cols generalizing m with
  | nil => rfl
  | cons c cs ih =>
    have hc : cntGet m c = 0 := h0 c (List.mem_cons_self c cs)
    have hloop : dedupLoop (m.length + 1) m c (cntGet m c) = (m, c, 0) := by
      rw [hc]
      rfl
    rw [dedupGo, hloop]
    have hnotmem : c ∉ cs := (List.nodup_cons.mp hnd).1
    have htail : dedupGo (cntSet m c (0 + 1)) cs = cs := by
      refine ih (cntSet m c (0 + 1)) (List.nodup_cons.mp hnd).2 ?_
      intro x hx
      have hxc : x ≠ c := fun he => hnotmem (he ▸ hx)
      rw [cntGet_set_ne m c x (0 + 1) hxc]
      exact h0 x (List.mem_cons_of_mem c hx)
    rw [htail]

theorem pandasCols_distinct (cols : List String) (hnd : cols.Nodup)
    (hne : ∀ c ∈ cols, c ≠ "") : pandasCols cols = cols := by
  unfold pandasCols
  rw [renameEmptiesFrom_id 0 cols hne]
  exact dedupGo_fresh cols [] hnd (fun c _ => rfl)

/-- C4 counterexample: in `c4blank` the boundaries are `(1, 3)`, yet the
metadata table contains the content of the `Kills:,` line at index 3 —
pandas skips the blank line at index 2 and the `nrows`-bounded read runs
past the range — so the table is NOT parsed from exactly the lines in
`[section1_end, section2_end)` as claimed. -/
theorem C4_blank_line_counterexample :
    boundaryScan c4blank = (some 1, some 3)
    ∧ (parse_kovaaks_csv c4blank).weapon_df
        = ⟨["Weapon", "Ammo"], [[some "Kills:", some "5"]]⟩
    ∧ (parse_kovaaks_csv c4blank).weapon_df ≠ specRangeMetadataParse c4blank 1 3 :=
  ⟨by decide, by decide, by decide⟩

/-- C4 amended: when both boundaries are set, the metadata table is the
tabular parse whose header is the first non-blank line at or after
`section1_end` and whose data are the next `section2_end - section1_end - 1`
non-blank lines (pandas `skip_blank_lines`), with every fully blank row
dropped and an empty frame on a parse failure; whenever the range
`[section1_end, section2_end)` contains no blank line, this is exactly the
tabular parse of the lines of that range with the line at `section1_end` as
header. -/
theorem C4_metadata_line_range (ls : List String) (a b : Nat)
    (h : boundaryScan ls = (some a, some b)) :
    ((parse_kovaaks_csv ls).weapon_df =
      (match (ls.drop a).filter (fun x => !pdBlank x) with
       | [] => DF.empty
       | hd :: rest =>
         match csvCore hd (rest.take (b - a - 1)) with
         | .ok df => df.dropAllNone
         | .error _ => DF.empty))
    ∧ ((∀ l ∈ (ls.drop a).take (b - a), pdBlank l = false) →
        (parse_kovaaks_csv ls).weapon_df = specRangeMetadataParse ls a b) := by
  have hab : a < b := bScan_lt ls a b h
  have h1 : (boundaryScan ls).1 = some a := by rw [h]
  have h2 : (boundaryScan ls).2 = some b := by rw [h]
  have hgen : (parse_kovaaks_csv ls).weapon_df =
      (match (ls.drop a).filter (fun x => !pdBlank x) with
       | [] => DF.empty
       | hd :: rest =>
         match csvCore hd (rest.take (b - a - 1)) with
         | .ok df => df.dropAllNone
         | .error _ => DF.empty) := by
    simp only [parse_kovaaks_csv, h1, h2, weaponPart, read_csv]
    rcases hf : (ls.drop a).filter (fun x => !pdBlank x) with _ | ⟨hd, rest⟩
    · simp
    · rcases hc : csvCore hd (rest.take (b - a - 1)) with e | df <;> simp [hc]
  refine ⟨hgen, ?_⟩
  intro hnb
  rw [hgen]
  simp only [specRangeMetadataParse]
  have hTfil : ((ls.drop a).take (b - a)).filter (fun x => !pdBlank x)
      = (ls.drop a).take (b - a) := by
    rw [List.filter_eq_self]
    intro x hx
    simp [hnb x hx]
  cases hT : (ls.drop a).take (b - a) with
  | nil =>
    have hd0 : ls.drop a = [] := by
      rcases List.take_eq_nil_iff.mp hT with h' | h'
      · omega
      · exact h'
    rw [hd0]
    simp
  | cons hd restT =>
    have hfe : (ls.drop a).filter (fun x => !pdBlank x)
        = hd :: (restT ++ ((ls.drop a).drop (b - a)).filter (fun x => !pdBlank x)) := by
      conv_lhs => rw [← List.take_append_drop (b - a) (ls.drop a)]
      rw [List.filter_append, hTfil, hT]
      simp
    rw [hfe]
    have hmin := List.length_take (b - a) (ls.drop a)
    rw [hT] at hmin
    simp only [List.length_cons] at hmin
    have hminle := min_le_left (b - a) (ls.drop a).length
    have hlen : restT.length ≤ b - a - 1 := by omega
    have hdata : (restT
        ++ ((ls.drop a).drop (b - a)).filter (fun x => !pdBlank x)).take (b - a - 1)
        = restT := by
      by_cases hcase : restT.length = b - a - 1
      · rw [← hcase, List.take_left]
      · have hlt : restT.length < b - a - 1 := lt_of_le_of_ne hlen hcase
        have hlen2 : (ls.drop a).length ≤ b - a := by
          rcases min_choice (b - a) (ls.drop a).length with hm | hm <;>
            rw [hm] at hmin <;> omega
        rw [List.drop_eq_nil_iff.mpr hlen2]
        simp only [List.filter_nil, List.append_nil]
        exact List.take_of_length_le hlen
    show (match csvCore hd ((restT
        ++ ((ls.drop a).drop (b - a)).filter (fun x => !pdBlank x)).take (b - a - 1)) with
      | .ok df => df.dropAllNone
      | .error _ => DF.empty) =
      (match csvCore hd restT with
      | .ok df => df.dropAllNone
      | .error _ => DF.empty)
    rw [hdata]

/-- C4 witness: the blank-free-range case instantiated on a concrete file:
the metadata table is read from exactly the lines `[2, 5)` and the fully
blank ROW `","` is dropped. -/
theorem C4_metadata_line_range_witness :
    (parse_kovaaks_csv c4file).weapon_df = specRangeMetadataParse c4file 2 5 :=
  (C4_metadata_line_range c4file 2 5 (by decide)).2 (by decide)

/-- C8 counterexample: in `c8dup` the event section is the single header
line `A,A` before the `Weapon,` line; the event table has zero rows but its
columns are the pandas-mangled names `A, A.1` — not exactly the column names
of the header line as claimed. -/
theorem C8_dup_header_counterexample :
    (boundaryScan c8dup).1 = some 1
    ∧ (parse_kovaaks_csv c8dup).main_df.rows = []
    ∧ (parse_kovaaks_csv c8dup).main_df.cols = ["A", "A.1"]
    ∧ (parse_kovaaks_csv c8dup).main_df.cols ≠ splitFields "A,A" :=
  ⟨by decide, by decide, by decide, by decide⟩

/-- C8 amended: a file whose event section is a single non-blank header line
(the `Weapon,` line is at index 1) yields an event table with zero rows
whose columns are the pandas-normalized names of that header line (empty
fields renamed `Unnamed: i`, duplicates mangled with `.k` suffixes); when
the header's fields are pairwise distinct and nonempty these are exactly the
header's column names; and whenever `section1_end` is unset or 0, the event
table is the empty container. -/
theorem C8_event_header_only :
    (∀ (h : String) (t : List String),
        (boundaryScan (h :: t)).1 = some 1 → pdBlank h = false →
        (parse_kovaaks_csv (h :: t)).main_df = ⟨pandasCols (splitFields h), []⟩)
    ∧ (∀ (h : String) (t : List String),
        (boundaryScan (h :: t)).1 = some 1 → pdBlank h = false →
        (splitFields h).Nodup → (∀ c ∈ splitFields h, c ≠ "") →
        (parse_kovaaks_csv (h :: t)).main_df = ⟨splitFields h, []⟩)
    ∧ (∀ ls : List String,
        (boundaryScan ls).1 = none ∨ (boundaryScan ls).1 = some 0 →
        (parse_kovaaks_csv ls).main_df = DF.empty) := by
  have part1 : ∀ (h : String) (t : List String),
      (boundaryScan (h :: t)).1 = some 1 → pdBlank h = false →
      (parse_kovaaks_csv (h :: t)).main_df = ⟨pandasCols (splitFields h), []⟩ := by
    intro h t h1 hb
    have hf : (h :: t).filter (fun x => !pdBlank x)
        = h :: t.filter (fun x => !pdBlank x) := by
      simp [List.filter, hb]
    simp [parse_kovaaks_csv, eventPart, h1, read_csv, hf, csvCore,
      List.drop_zero, List.take_zero]
  refine ⟨part1, ?_, ?_⟩
  · intro h t h1 hb hnd hne
    rw [part1 h t h1 hb, pandasCols_distinct (splitFields h) hnd hne]
  · intro ls hor
    rcases hor with h | h <;> simp [parse_kovaaks_csv, eventPart, h]

/-- C8 witness: a concrete header-only event section with distinct nonempty
header names gives a zero-row table with exactly those columns, and a file
whose `Weapon,` line is first gives an empty container. -/
theorem C8_event_header_only_witness :
    (parse_kovaaks_csv c7file).main_df = ⟨splitFields "A,B", []⟩
    ∧ (parse_kovaaks_csv ["Weapon,x", "Kills:,1"]).main_df = DF.empty :=
  ⟨C8_event_header_only.2.1 "A,B" ["Weapon,x", "Kills:,1"] (by decide) (by decide)
      (by decide) (by decide),
   C8_event_header_only.2.2 ["Weapon,x", "Kills:,1"] (Or.inr (by decide))⟩

/-- C1 counterexample: in the stats line `Total: 1,234,` the value cleans up
to `1,234`, which Python `int()` rejects (embedded comma), so the stored
value is the string `1,234` — not the integer 1234 as claimed. -/
theorem C1_counterexample :
    dictGet (parse_kovaaks_csv c1file).stats "Total" = some (.str "1,234")
    ∧ dictGet (parse_kovaaks_csv c1file).stats "Total" ≠ some (.int 1234) := by
  constructor
  · decide
  · decide

/-- C1 amended: a cleaned value `1,234` is stored unchanged as the string
`1,234` (the embedded comma defeats `int()`); `0.50,` cleans to `0.50` and
is stored as the float 0.5; `N/A` is stored unchanged as the string `N/A`. -/
theorem C1_value_coercion :
    (parse_kovaaks_csv c1allFile).stats =
      [("Kills", .int 5), ("A", .str "1,234"), ("B", .float (mkRat 1 2)),
        ("C", .str "N/A")] := by
  decide

/-- C2 counterexample: on a well-formed three-section file the parse reads
the underlying file three times (the initial `readlines` plus one
`pd.read_csv` for each table section), not exactly once as claimed. -/
theorem C2_counterexample :
    (parse_kovaaks_csv c2file).reads = 3 ∧ (parse_kovaaks_csv c2file).reads ≠ 1 := by
  constructor
  · decide
  · decide

/-- C2 amended: the file's line sequence is fully materialized by one
initial read, and boundary detection and the stats section use only it; but
each attempted table parse re-reads the underlying file, so the total number
of reads is between 1 and 4, and it is exactly 1 precisely when no table
parse is attempted — `section1_end` unset, or `section1_end = 0` with
`section2_end` unset. -/
theorem C2_read_count (ls : List String) :
    1 ≤ (parse_kovaaks_csv ls).reads
    ∧ (parse_kovaaks_csv ls).reads ≤ 4
    ∧ ((parse_kovaaks_csv ls).reads = 1 ↔
        ((boundaryScan ls).1 = none
          ∨ ((boundaryScan ls).1 = some 0 ∧ (boundaryScan ls).2 = none))) := by
  cases ls with
  | nil => simp [parse_kovaaks_csv, eventPart, weaponPart, boundaryScan]
  | cons l t =>
    cases h1 : (boundaryScan (l :: t)).1 with
    | none =>
      cases h2 : (boundaryScan (l :: t)).2 <;>
        simp [parse_kovaaks_csv, eventPart, weaponPart, h1, h2]
    | some n =>
      cases n with
      | zero =>
        cases h2 : (boundaryScan (l :: t)).2 with
        | none => simp [parse_kovaaks_csv, eventPart, weaponPart, h1, h2]
        | some b =>
          have hw : (weaponPart (l :: t) (some 0) (some b)).2 = 1 := by
            simp only [weaponPart]
            cases read_csv (l :: t) 0 (b - 0 - 1) <;> rfl
          simp [parse_kovaaks_csv, eventPart, h1, h2, hw]
      | succ m =>
        have hwex : ∃ w ∈ (l :: t), isWeaponLine w = true := by
          have hfst := bScan_fst (l :: t)
          rw [h1] at hfst
          obtain ⟨w, hwmem, hww⟩ := firstIdx_some_mem _ _ _ hfst.symm
          exact ⟨w, scanLines_subset (l :: t) hwmem, hww⟩
        obtain ⟨w, hwmem, hww⟩ := hwex
        obtain ⟨d0, hd0⟩ := read00_ok (l :: t) w hwmem (isWeaponLine_not_blank w hww)
        have hev : 1 ≤ (eventPart (l :: t) (some (m + 1))).2
            ∧ (eventPart (l :: t) (some (m + 1))).2 ≤ 2 := by
          simp only [eventPart, if_pos (Nat.succ_pos m)]
          cases hr : read_csv (l :: t) 0 (m + 1 - 1) with
          | ok df =>
            cases hdf : df.rows with
            | nil => simp [hdf, hd0]
            | cons r rs => simp [hdf]
          | error e => simp [hd0]
        cases h2 : (boundaryScan (l :: t)).2 with
        | none =>
          have hw0 : weaponPart (l :: t) (some (m + 1)) none = (DF.empty, 0) := rfl
          simp only [parse_kovaaks_csv, h1, h2, hw0]
          refine ⟨by omega, by omega, ?_⟩
          constructor
          · intro hcon
            exact absurd hcon (by omega)
          · rintro (hcon | ⟨hcon, _⟩) <;> simp at hcon
        | some b =>
          have hw : (weaponPart (l :: t) (some (m + 1)) (some b)).2 = 1 := by
            simp only [weaponPart]
            rcases hc : read_csv (l :: t) (m + 1) (b - (m + 1) - 1) with e | df <;>
              simp [hc]
          simp only [parse_kovaaks_csv, h1, h2, hw]
          refine ⟨by omega, by omega, ?_⟩
          constructor
          · intro hcon
            exact absurd hcon (by omega)
          · rintro (hcon | ⟨hcon, _⟩) <;> simp at hcon

/-- C2 amended witness: the bounds instantiated on the empty file, where the
only read is the initial one. -/
theorem C2_read_count_witness :
    1 ≤ (parse_kovaaks_csv []).reads ∧ (parse_kovaaks_csv []).reads ≤ 4 :=
  ⟨(C2_read_count []).1, (C2_read_count []).2.1⟩

/-! Helper lemmas about the aggregator and its defaultdict containers. -/

theorem entSet_ne_nil {V : Type} (es : List (String × V)) (k : String) (v : V) :
    entSet es k v ≠ [] := by
  cases es with
  | nil => simp [entSet]
  | cons e r =>
    obtain ⟨k1, v1⟩ := e
    by_cases h : k1 = k <;> simp [entSet, h]

theorem aggRun_single (s : AggState) (e : DirEntry) :
    aggRun s [e] = ((aggStep s e).1, (aggStep s e).2) := by
  simp [aggRun]

theorem aggRun_append (s : AggState) (xs ys : List DirEntry) :
    aggRun s (xs ++ ys) =
      ((aggRun (aggRun s xs).1 ys).1,
        (aggRun s xs).2 ++ (aggRun (aggRun s xs).1 ys).2) := by
  induction xs generalizing s with
  | nil => simp [aggRun]
  | cons e xs ih => simp [aggRun, ih (aggStep s e).1, List.append_assoc]

theorem aggStep_error (s : AggState) (name msg : String)
    (h1 : pyEndsWith ".csv" name = true) (h2 : (reMatchFull name).isSome = true) :
    aggStep s ⟨name, Except.error msg⟩ =
      (s, ["Error processing " ++ name ++ ": " ++ msg]) := by
  obtain ⟨g, hg⟩ := Option.isSome_iff_exists.mp h2
  simp [aggStep, h1, hg]

theorem pdSet_dfl {V : Type} (m : PyDefaultDict V) (k : String) (v : V) :
    (pdSet m k v).dfl = m.dfl := rfl

theorem pdGet_snd_dfl {V : Type} (m : PyDefaultDict V) (k : String) :
    ((pdGet m k).2).dfl = m.dfl := by
  unfold pdGet
  cases pdLookup m k <;> rfl

theorem nestedSet_dfl {V : Type} (m : PyDefaultDict (PyDefaultDict V))
    (k1 k2 : String) (v : V) : (nestedSet m k1 k2 v).dfl = m.dfl := by
  simp [nestedSet, pdSet_dfl, pdGet_snd_dfl]

theorem aggStep_dfl (s : AggState) (e : DirEntry) :
    (aggStep s e).1.main_data.dfl = s.main_data.dfl
    ∧ (aggStep s e).1.weapon_data.dfl = s.weapon_data.dfl
    ∧ (aggStep s e).1.stats_data.dfl = s.stats_data.dfl := by
  cases hEnd : pyEndsWith ".csv" e.name
  · simp [aggStep, hEnd]
  · cases hm : reMatchFull e.name with
    | none => simp [aggStep, hEnd, hm]
    | some g =>
      cases hc : e.content with
      | error msg => simp [aggStep, hEnd, hm, hc]
      | ok ls => simp [aggStep, hEnd, hm, hc, nestedSet_dfl]

theorem aggRun_dfl (dir : List DirEntry) (s : AggState) :
    (aggRun s dir).1.main_data.dfl = s.main_data.dfl
    ∧ (aggRun s dir).1.weapon_data.dfl = s.weapon_data.dfl
    ∧ (aggRun s dir).1.stats_data.dfl = s.stats_data.dfl := by
  induction dir generalizing s with
  | nil => exact ⟨rfl, rfl, rfl⟩
  | cons e rest ih =>
    have hs := aggStep_dfl s e
    have hr := ih (aggStep s e).1
    refine ⟨?_, ?_, ?_⟩ <;> simp only [aggRun]
    · rw [hr.1, hs.1]
    · rw [hr.2.1, hs.2.1]
    · rw [hr.2.2, hs.2.2]

theorem load_dfl (dir : List DirEntry) :
    (load_all_kovaaks_data dir).1.main_data.dfl = ⟨[], DF.empty⟩
    ∧ (load_all_kovaaks_data dir).1.weapon_data.dfl = ⟨[], DF.empty⟩
    ∧ (load_all_kovaaks_data dir).1.stats_data.dfl = ⟨[], ([] : StatsDict)⟩ :=
  aggRun_dfl dir initState

theorem pdGet_missing {V : Type} (m : PyDefaultDict V) (k : String)
    (h : pdLookup m k = none) :
    pdGet m k = (m.dfl, ⟨m.entries ++ [(k, m.dfl)], m.dfl⟩) := by
  unfold pdGet
  rw [h]

theorem entLookup_append_self {V : Type} (es : List (String × V)) (k : String) (v : V)
    (h : entLookup es k = none) : entLookup (es ++ [(k, v)]) k = some v := by
  induction es with
  | nil => simp [entLookup]
  | cons e r ih =>
    obtain ⟨k1, v1⟩ := e
    by_cases hk : k1 = k
    · simp [entLookup, hk] at h
    · simp only [entLookup, hk, if_neg hk, List.cons_append] at h ⊢
      exact ih h

/-- C3 counterexample: the filename
`A - Challenge - 2024.01.15-10.30.00 Stats.csv.bak.csv` ends in `.csv` and
does NOT match the pattern exactly (characters follow `Stats.csv`), yet it
still contributes an aggregation entry, because `re.match` anchors only at
the start of the name. -/
theorem C3_exact_match_counterexample :
    pyEndsWith ".csv" c3BadName = true
    ∧ specExactFilenameForm c3BadName = false
    ∧ (load_all_kovaaks_data [⟨c3BadName, Except.ok []⟩]).1.stats_data.entries ≠ [] := by
  refine ⟨by decide, by decide, by decide⟩

/-- C3 amended: a directory entry whose content reads successfully
contributes an aggregation entry if and only if its name ends in `.csv` and
the pattern `<task> - Challenge - <timestamp> Stats.csv` matches a prefix of
the name (start-anchored `re.match`, trailing characters permitted); the
spec's example name yields identity `("Close Range", "2024.01.15-10.30.00")`
and `random_notes.csv` is silently skipped with no entry and no error line. -/
theorem C3_filename_filter :
    (∀ (name : String) (ls : List String),
        ((load_all_kovaaks_data [⟨name, Except.ok ls⟩]).1.stats_data.entries ≠ [] ↔
          (pyEndsWith ".csv" name = true ∧ (reMatchFull name).isSome = true)))
    ∧ (∀ ls : List String,
        (load_all_kovaaks_data [⟨closeRangeName, Except.ok ls⟩]).1.stats_data =
          ⟨[("Close Range",
              ⟨[("2024.01.15-10.30.00", (parse_kovaaks_csv ls).stats)], []⟩)],
            ⟨[], []⟩⟩)
    ∧ load_all_kovaaks_data [⟨"random_notes.csv", Except.ok []⟩] = (initState, []) := by
  refine ⟨?_, ?_, by decide⟩
  · intro name ls
    rw [load_all_kovaaks_data, aggRun_single]
    cases hEnd : pyEndsWith ".csv" name with
    | false => simp [aggStep, hEnd, initState]
    | true =>
      cases hm : reMatchFull name with
      | none => simp [aggStep, hEnd, hm, initState]
      | some g =>
        simp [aggStep, hEnd, hm, nestedSet, pdSet, entSet_ne_nil]
  · intro ls
    have hm : reMatchFull closeRangeName =
        some ("Close Range", "2024.01.15-10.30.00") := by decide
    have hEnd : pyEndsWith ".csv" closeRangeName = true := by decide
    have hstrip : pyStrip "Close Range" = "Close Range" := by decide
    rw [load_all_kovaaks_data, aggRun_single]
    simp [aggStep, hEnd, hm, hstrip, nestedSet, pdGet, pdLookup, entLookup,
      pdSet, entSet, initState]

/-- C3 witness: a valid name with readable content contributes an entry. -/
theorem C3_filename_filter_witness :
    (load_all_kovaaks_data [⟨plainName, Except.ok []⟩]).1.stats_data.entries ≠ [] :=
  (C3_filename_filter.1 plainName []).mpr ⟨by decide, by decide⟩

/-- C9: if reading a matching file raises, the aggregator logs exactly one
error line naming the file and its message, inserts nothing for it (the
final state equals the state obtained without that file, so processing
continued through the remaining files); concretely, on a directory of three
valid files and one failing file the indices hold entries for exactly the
three valid tasks, three files are counted as processed and exactly one
error line is emitted — without the aggregator itself raising. -/
theorem C9_aggregator_error_isolation :
    (∀ (pre post : List DirEntry) (name msg : String),
        pyEndsWith ".csv" name = true →
        (reMatchFull name).isSome = true →
        (load_all_kovaaks_data (pre ++ ⟨name, Except.error msg⟩ :: post)).1 =
            (load_all_kovaaks_data (pre ++ post)).1
          ∧ (load_all_kovaaks_data (pre ++ ⟨name, Except.error msg⟩ :: post)).2.length
              = (load_all_kovaaks_data (pre ++ post)).2.length + 1
          ∧ ("Error processing " ++ name ++ ": " ++ msg) ∈
              (load_all_kovaaks_data (pre ++ ⟨name, Except.error msg⟩ :: post)).2)
    ∧ (load_all_kovaaks_data demoDir9).1 = (load_all_kovaaks_data demoDir9ok).1
    ∧ (load_all_kovaaks_data demoDir9).1.processed = 3
    ∧ ((load_all_kovaaks_data demoDir9).1.stats_data.entries.map Prod.fst =
        ["Task A", "Task B", "Task C"])
    ∧ (load_all_kovaaks_data demoDir9).2 =
        ["Error processing Task D - Challenge - 2024.01.01-00.00.04 Stats.csv: read failure"] := by
  refine ⟨?_, by decide, by decide, by decide, by decide⟩
  intro pre post name msg h1 h2
  unfold load_all_kovaaks_data
  rw [aggRun_append, aggRun_append]
  rw [show aggRun (aggRun initState pre).1 (⟨name, Except.error msg⟩ :: post)
      = ((aggRun (aggStep (aggRun initState pre).1 ⟨name, Except.error msg⟩).1 post).1,
          (aggStep (aggRun initState pre).1 ⟨name, Except.error msg⟩).2
            ++ (aggRun (aggStep (aggRun initState pre).1
                  ⟨name, Except.error msg⟩).1 post).2) from rfl]
  rw [aggStep_error (aggRun initState pre).1 name msg h1 h2]
  refine ⟨rfl, ?_, ?_⟩
  · simp only [List.length_append, List.length_cons, List.length_nil]
    omega
  · simp

/-- C9 witness: the general error-isolation statement instantiated on a
concrete failing entry placed in front of the three valid files. -/
theorem C9_aggregator_error_isolation_witness :
    (load_all_kovaaks_data
        ([] ++ ⟨"Bad - Challenge - 2024.02.02-00.00.00 Stats.csv",
            Except.error "boom"⟩ :: demoDir9ok)).1 =
      (load_all_kovaaks_data ([] ++ demoDir9ok)).1 :=
  (C9_aggregator_error_isolation.1 [] demoDir9ok
    "Bad - Challenge - 2024.02.02-00.00.00 Stats.csv" "boom"
    (by decide) (by decide)).1

/-- C10: the three returned mappings are auto-vivifying — a lookup of a
never-inserted task name yields the empty inner mapping and inserts it; a
lookup of a timestamp in that fresh inner mapping yields the empty leaf
default (empty frame for the event and metadata indices, empty dict for the
stats index) and inserts it. -/
theorem C10_default_vivification (dir : List DirEntry) (t d : String)
    (hm : pdLookup (load_all_kovaaks_data dir).1.main_data t = none)
    (hw : pdLookup (load_all_kovaaks_data dir).1.weapon_data t = none)
    (hs : pdLookup (load_all_kovaaks_data dir).1.stats_data t = none) :
    ((pdGet (load_all_kovaaks_data dir).1.main_data t).1 = ⟨[], DF.empty⟩
      ∧ pdLookup (pdGet (load_all_kovaaks_data dir).1.main_data t).2 t
          = some ⟨[], DF.empty⟩
      ∧ (pdGet ((pdGet (load_all_kovaaks_data dir).1.main_data t).1) d).1 = DF.empty
      ∧ pdLookup (pdGet ((pdGet (load_all_kovaaks_data dir).1.main_data t).1) d).2 d
          = some DF.empty)
    ∧ ((pdGet (load_all_kovaaks_data dir).1.weapon_data t).1 = ⟨[], DF.empty⟩
      ∧ pdLookup (pdGet (load_all_kovaaks_data dir).1.weapon_data t).2 t
          = some ⟨[], DF.empty⟩
      ∧ (pdGet ((pdGet (load_all_kovaaks_data dir).1.weapon_data t).1) d).1 = DF.empty
      ∧ pdLookup (pdGet ((pdGet (load_all_kovaaks_data dir).1.weapon_data t).1) d).2 d
          = some DF.empty)
    ∧ ((pdGet (load_all_kovaaks_data dir).1.stats_data t).1 = ⟨[], ([] : StatsDict)⟩
      ∧ pdLookup (pdGet (load_all_kovaaks_data dir).1.stats_data t).2 t
          = some ⟨[], ([] : StatsDict)⟩
      ∧ (pdGet ((pdGet (load_all_kovaaks_data dir).1.stats_data t).1) d).1
          = ([] : StatsDict)
      ∧ pdLookup (pdGet ((pdGet (load_all_kovaaks_data dir).1.stats_data t).1) d).2 d
          = some ([] : StatsDict)) := by
  have hd := load_dfl dir
  refine ⟨?_, ?_, ?_⟩
  · rw [pdGet_missing _ t hm, hd.1]
    refine ⟨rfl, entLookup_append_self _ t _ hm, ?_, ?_⟩
    · simp [pdGet, pdLookup, entLookup]
    · simp [pdGet, pdLookup, entLookup]
  · rw [pdGet_missing _ t hw, hd.2.1]
    refine ⟨rfl, entLookup_append_self _ t _ hw, ?_, ?_⟩
    · simp [pdGet, pdLookup, entLookup]
    · simp [pdGet, pdLookup, entLookup]
  · rw [pdGet_missing _ t hs, hd.2.2]
    refine ⟨rfl, entLookup_append_self _ t _ hs, ?_, ?_⟩
    · simp [pdGet, pdLookup, entLookup]
    · simp [pdGet, pdLookup, entLookup]

/-- C10 witness: on the empty directory every lookup misses and vivifies. -/
theorem C10_default_vivification_witness :
    (pdGet (load_all_kovaaks_data []).1.stats_data "x").1 = ⟨[], ([] : StatsDict)⟩ :=
  (C10_default_vivification [] "x" "y" (by decide) (by decide) (by decide)).2.2.1

end Kovaaks
